import Mathlib

/-!
Verification of the devtools room-mirroring engine
(`packages/liveblocks-devtools/src/panel/contexts/CurrentRoom.tsx` and the
tree-node data model from
`packages/liveblocks-core/src/protocol/DevtoolsTreeNode.ts`).

The module-level mutable registry (`roomsById`, `allRoomIds`, `_eventHubs`,
the `onRoomCountChanged` event source), the React `currentRoomId` state and
the notification side effects are embedded as one explicit state record
(`PanelState`); every source function becomes a pure state-passing function.
JavaScript `Map` objects (string keys, insertion-ordered) are embedded as
association lists with JS `Map` semantics: `set` replaces in place or
appends, `delete` removes the entry, `keys` lists keys in insertion order.
Listener invocation (`EventSource.notify`) is observed through an append-only
notification log carried in the state.
-/

namespace Liveblocks

/-! ## Insertion-ordered string-keyed maps (JS `Map` semantics) -/

/-- `Map.get(k)`: first binding for `k`, if any. -/
def mapGet {α : Type} : List (String × α) → String → Option α
  | [], _ => none
  | (k1, v1) :: rest, k => if k1 = k then some v1 else mapGet rest k

/-- `Map.has(k)`. -/
def mapHas {α : Type} (m : List (String × α)) (k : String) : Bool :=
  (mapGet m k).isSome

/-- `Map.set(k, v)`: replaces the existing binding in place (keeping its
position in insertion order), or appends a new binding at the end. -/
def mapSet {α : Type} : List (String × α) → String → α → List (String × α)
  | [], k, v => [(k, v)]
  | (k1, v1) :: rest, k, v =>
      if k1 = k then (k, v) :: rest else (k1, v1) :: mapSet rest k v

/-- `Map.delete(k)`: removes the binding for `k` (maps built with `mapSet`
never hold a duplicate key, so removing every match is the same thing). -/
def mapDelete {α : Type} : List (String × α) → String → List (String × α)
  | [], _ => []
  | (k1, v1) :: rest, k =>
      if k1 = k then mapDelete rest k else (k1, v1) :: mapDelete rest k

/-- `Array.from(map.keys())`: the keys in insertion order. -/
def mapKeys {α : Type} (m : List (String × α)) : List String :=
  m.map Prod.fst

theorem mapHas_iff_mem_keys {α : Type} (m : List (String × α)) (k : String) :
    mapHas m k = true ↔ k ∈ mapKeys m := by
  induction m with
  | nil => simp [mapHas, mapGet, mapKeys]
  | cons p rest ih =>
      obtain ⟨k1, v1⟩ := p
      by_cases h : k1 = k
      · simp [mapHas, mapGet, mapKeys, h]
      · have hne : ¬(k = k1) := fun h1 => h h1.symm
        simp only [mapHas, mapGet, mapKeys, List.map_cons, List.mem_cons, if_neg h,
          hne, false_or]
        exact ih

theorem mapHas_eq_false_iff {α : Type} (m : List (String × α)) (k : String) :
    mapHas m k = false ↔ mapGet m k = none := by
  unfold mapHas
  cases mapGet m k <;> simp

theorem mapKeys_mapSet_of_has {α : Type} (m : List (String × α)) (k : String) (v : α)
    (h : mapHas m k = true) : mapKeys (mapSet m k v) = mapKeys m := by
  induction m with
  | nil => simp [mapHas, mapGet] at h
  | cons p rest ih =>
      obtain ⟨k1, v1⟩ := p
      by_cases hk : k1 = k
      · simp [mapSet, mapKeys, hk]
      · simp only [mapHas, mapGet, if_neg hk] at h
        simp only [mapSet, if_neg hk, mapKeys, List.map_cons, List.cons.injEq, true_and]
        exact ih h

theorem mapKeys_mapSet_of_not_has {α : Type} (m : List (String × α)) (k : String) (v : α)
    (h : mapHas m k = false) : mapKeys (mapSet m k v) = mapKeys m ++ [k] := by
  induction m with
  | nil => simp [mapSet, mapKeys]
  | cons p rest ih =>
      obtain ⟨k1, v1⟩ := p
      by_cases hk : k1 = k
      · simp [mapHas, mapGet, hk] at h
      · simp only [mapHas, mapGet, if_neg hk] at h
        simp only [mapSet, if_neg hk, mapKeys, List.map_cons, List.cons_append,
          List.cons.injEq, true_and]
        exact ih h

theorem mapGet_mapSet_self {α : Type} (m : List (String × α)) (k : String) (v : α) :
    mapGet (mapSet m k v) k = some v := by
  induction m with
  | nil => simp [mapSet, mapGet]
  | cons p rest ih =>
      obtain ⟨k1, v1⟩ := p
      by_cases hk : k1 = k
      · simp [mapSet, mapGet, hk]
      · simp [mapSet, mapGet, hk, ih]

theorem mapGet_mapSet_ne {α : Type} (m : List (String × α)) (k k1 : String) (v : α)
    (h : k ≠ k1) : mapGet (mapSet m k v) k1 = mapGet m k1 := by
  induction m with
  | nil => simp [mapSet, mapGet, h]
  | cons p rest ih =>
      obtain ⟨k2, v2⟩ := p
      by_cases hk : k2 = k
      · simp [mapSet, mapGet, hk, h]
      · simp [mapSet, mapGet, hk, ih]

theorem mapGet_mapDelete_self {α : Type} (m : List (String × α)) (k : String) :
    mapGet (mapDelete m k) k = none := by
  induction m with
  | nil => simp [mapDelete, mapGet]
  | cons p rest ih =>
      obtain ⟨k1, v1⟩ := p
      by_cases hk : k1 = k
      · simp [mapDelete, hk, ih]
      · simp [mapDelete, mapGet, hk, ih]

theorem mapGet_mapDelete_ne {α : Type} (m : List (String × α)) (k k1 : String)
    (h : k ≠ k1) : mapGet (mapDelete m k) k1 = mapGet m k1 := by
  induction m with
  | nil => simp [mapDelete]
  | cons p rest ih =>
      obtain ⟨k2, v2⟩ := p
      by_cases hk : k2 = k
      · simp [mapDelete, mapGet, hk, h, ih]
      · simp [mapDelete, mapGet, hk, ih]

theorem mapKeys_mapDelete {α : Type} (m : List (String × α)) (k : String) :
    mapKeys (mapDelete m k) = (mapKeys m).filter (fun x => x != k) := by
  induction m with
  | nil => simp [mapDelete, mapKeys]
  | cons p rest ih =>
      obtain ⟨k1, v1⟩ := p
      by_cases hk : k1 = k
      · simp only [mapDelete, if_pos hk, mapKeys, List.map_cons, List.filter_cons, hk,
          bne_self_eq_false, if_neg Bool.false_ne_true]
        exact ih
      · have hb : (k1 != k) = true := by simp [hk]
        simp only [mapDelete, if_neg hk, mapKeys, List.map_cons, List.filter_cons, hb,
          if_true, eq_self_iff_true, List.cons.injEq, true_and]
        exact ih

/-! ## Tree-node data model (`DevtoolsTreeNode.ts`) -/

/-- Modelled from the spec: the `Json` type from the core lib (not under
`src/`) — an arbitrary JSON-serializable value (spec section 3, "arbitrary
JSON-serializable value"). Numbers are abstracted to integers; no claim
inspects a JSON value. -/
inductive Json : Type
  | null : Json
  | bool (b : Bool) : Json
  | num (n : Int) : Json
  | str (s : String) : Json
  | arr (items : List Json) : Json
  | obj (fields : List (String × Json)) : Json

/-- A tree-node key: `key: number | string`. -/
def NodeKey : Type := Nat ⊕ String

/-- `JsonTreeNode`: a `Json` leaf with identity and key. -/
structure JsonTreeNode where
  id : String
  key : NodeKey
  value : Json

/-- `UserTreeNode`: a presence root (participant record). -/
structure UserTreeNode where
  id : String
  key : NodeKey
  info : Json
  presence : List JsonTreeNode

/-- `StorageTreeNode`: `LiveMap | LiveList | LiveObject | Json` variants,
each container holding an ordered sequence of child storage nodes. -/
inductive StorageTreeNode : Type
  | liveMap (id : String) (key : NodeKey) (entries : List StorageTreeNode)
  | liveList (id : String) (key : NodeKey) (items : List StorageTreeNode)
  | liveObject (id : String) (key : NodeKey) (fields : List StorageTreeNode)
  | json (node : JsonTreeNode)

/-- Modelled from the spec: the `ConnectionState` enum from the core package
(not under `src/`); spec section 3 lists connecting, open, closed, failed as
the connection-lifecycle values. Its inhabitants are never inspected by the
reducer. -/
inductive ConnectionState : Type
  | connecting
  | opened
  | closed
  | failed
deriving DecidableEq

/-! ## Room, event hubs, notifications (`CurrentRoom.tsx`) -/

/-- The mirrored per-session state (`type Room`): every data field is
nullable and starts out absent. -/
structure Room where
  roomId : String
  status : Option ConnectionState
  storage : Option (List StorageTreeNode)
  me : Option UserTreeNode
  others : Option (List UserTreeNode)

/-- Modelled from the spec: one notification channel
(`EventSource`, from `lib/EventSource`, not under `src/`). Spec section 4.2:
a channel is a pure fan-out over currently registered listeners. Listeners
are carried as abstract tokens; `srcId` is the allocation stamp that stands
for the JavaScript object identity of the source. -/
structure EventSource where
  srcId : Nat
  listeners : List Nat
deriving DecidableEq

/-- `type EventHub`: four independent channels per room. -/
structure EventHub where
  onStatus : EventSource
  onMe : EventSource
  onOthers : EventSource
  onStorage : EventSource
deriving DecidableEq

/-- One of the four hub channels. -/
inductive Channel : Type
  | status
  | me
  | others
  | storage
deriving DecidableEq

/-- An observable listener-invocation event: either the registry-level
`onRoomCountChanged.notify()` or a per-room hub channel notification
(`hub.onStatus.notify()` and friends). -/
inductive Notification : Type
  | roomCountChanged : Notification
  | hub (roomId : String) (ch : Channel) : Notification
deriving DecidableEq

/-- An outbound message to the client (`sendMessageToClient`). -/
inductive PanelToClientMsg : Type
  | connect
  | roomSubscribe (roomId : String)
  | roomUnsubscribe (roomId : String)
deriving DecidableEq

/-- The optional data fields of a `room::sync::full` / `room::sync::partial`
message; `none` embeds an absent (`undefined`) field. -/
structure SyncBody where
  roomId : String
  status : Option ConnectionState
  storage : Option (List StorageTreeNode)
  me : Option UserTreeNode
  others : Option (List UserTreeNode)

/-- The sync-message kind: `room::sync::full` vs `room::sync::partial`
(constructor `part` embeds the latter; the source word is a Lean keyword). -/
inductive SyncKind : Type
  | full
  | part
deriving DecidableEq

/-- The inbound message alphabet (`FullClientToPanelMessage`, as consumed by
`onClientMessage`). -/
inductive ClientToPanelMsg : Type
  | wakeUpDevtools
  | roomAvailable (roomId : String)
  | roomUnavailable (roomId : String)
  | roomSync (kind : SyncKind) (body : SyncBody)

/-- The whole mutable world of `CurrentRoom.tsx`: the module-level globals
(`roomsById`, `allRoomIds`, `_eventHubs`), the React `currentRoomId` state,
plus two observation logs — the notifications fired and the outbound
messages sent. `nextSourceId` is the allocation counter backing the
`srcId` stamps. -/
structure PanelState where
  roomsById : List (String × Room)
  allRoomIds : List String
  eventHubs : List (String × EventHub)
  nextSourceId : Nat
  currentRoomId : Option String
  log : List Notification
  outbox : List PanelToClientMsg

/-- The state before any message is processed: empty maps, no selection. -/
def initialState : PanelState :=
  { roomsById := []
    allRoomIds := []
    eventHubs := []
    nextSourceId := 0
    currentRoomId := none
    log := []
    outbox := [] }

/-- `makeEventSource()` — modelled from the spec (the implementation lives in
`lib/EventSource`, not under `src/`): allocates a fresh source with no
listeners. -/
def makeEventSource (next : Nat) : EventSource × Nat :=
  ({ srcId := next, listeners := [] }, next + 1)

/-- `makeEventHub(roomId)`: builds four fresh sources and stores the hub in
`_eventHubs`. -/
def makeEventHub (roomId : String) (s : PanelState) : EventHub × PanelState :=
  let p1 := makeEventSource s.nextSourceId
  let p2 := makeEventSource p1.2
  let p3 := makeEventSource p2.2
  let p4 := makeEventSource p3.2
  let newEventHub : EventHub :=
    { onStatus := p1.1, onMe := p2.1, onOthers := p3.1, onStorage := p4.1 }
  (newEventHub,
    { s with eventHubs := mapSet s.eventHubs roomId newEventHub, nextSourceId := p4.2 })

/-- `getOrCreateEventHubForRoomId(roomId)`:
`_eventHubs.get(roomId) ?? makeEventHub(roomId)`. -/
def getOrCreateEventHubForRoomId (roomId : String) (s : PanelState) :
    EventHub × PanelState :=
  match mapGet s.eventHubs roomId with
  | some hub => (hub, s)
  | none => makeEventHub roomId s

/-- `getRoomHub(roomId)`: `roomId ? getOrCreateEventHubForRoomId(roomId) :
null`. JavaScript truthiness makes the empty string falsy, so the hub is
`null` both for `null` and for the id `""`. -/
def getRoomHub (roomId : Option String) (s : PanelState) :
    Option EventHub × PanelState :=
  match roomId with
  | none => (none, s)
  | some r =>
      if r = "" then (none, s)
      else
        let p := getOrCreateEventHubForRoomId r s
        (some p.1, p.2)

/-- Fire one hub channel (`hub.onX.notify()`), observed in the log. -/
def notifyHub (roomId : String) (ch : Channel) (s : PanelState) : PanelState :=
  { s with log := s.log ++ [Notification.hub roomId ch] }

/-- `makeRoom(roomId)`: insert a fresh all-null room, recompute `allRoomIds`
from the map keys, and fire `onRoomCountChanged.notify()`. -/
def makeRoom (roomId : String) (s : PanelState) : Room × PanelState :=
  let newRoom : Room :=
    { roomId := roomId, status := none, storage := none, me := none, others := none }
  let rooms1 := mapSet s.roomsById roomId newRoom
  (newRoom,
    { s with
        roomsById := rooms1
        allRoomIds := mapKeys rooms1
        log := s.log ++ [Notification.roomCountChanged] })

/-- `deleteRoom(roomId)`: a `void` function; when `roomsById.delete(roomId)`
removed an entry it recomputes `allRoomIds` and fires
`onRoomCountChanged.notify()`, otherwise nothing happens. -/
def deleteRoom (roomId : String) (s : PanelState) : Unit × PanelState :=
  if mapHas s.roomsById roomId then
    let rooms1 := mapDelete s.roomsById roomId
    ((),
      { s with
          roomsById := rooms1
          allRoomIds := mapKeys rooms1
          log := s.log ++ [Notification.roomCountChanged] })
  else ((), s)

/-- `getOrCreateRoom(roomId)`: `roomsById.get(roomId) ?? makeRoom(roomId)`. -/
def getOrCreateRoom (roomId : String) (s : PanelState) : Room × PanelState :=
  match mapGet s.roomsById roomId with
  | some room => (room, s)
  | none => makeRoom roomId s

/-! ## Current-room selection -/

/-- `setCurrentRoomId(roomId)`: validated set — only `null` or an id present
in `roomsById` is accepted, anything else is a no-op. -/
def setCurrentRoomId (roomId : Option String) (s : PanelState) : PanelState :=
  match roomId with
  | none => { s with currentRoomId := none }
  | some r =>
      if mapHas s.roomsById r then { s with currentRoomId := some r } else s

/-- `softSetCurrentRoomId(newRoomId)`: the functional state update
`currentRoomId === null || (!roomsById.has(currentRoomId) &&
(newRoomId === null || roomsById.has(newRoomId))) ? newRoomId :
currentRoomId`. -/
def softSetCurrentRoomId (newRoomId : Option String) (s : PanelState) : PanelState :=
  { s with
      currentRoomId :=
        match s.currentRoomId with
        | none => newRoomId
        | some c =>
            if !(mapHas s.roomsById c) &&
                (newRoomId.isNone ||
                  (match newRoomId with
                   | some n => mapHas s.roomsById n
                   | none => false)) then
              newRoomId
            else some c }

/-! ## The protocol reducer (`onClientMessage`) -/

/-- The result of running one inbound-message handler: either the handler
ran to completion, or it aborted with an uncaught JavaScript `TypeError`
(dereferencing a `null` hub); either way the mutations applied before the
abort persist in the carried state. -/
inductive StepOutcome : Type
  | ok (s : PanelState)
  | typeError (s : PanelState)

/-- The state carried by an outcome (mutations survive an uncaught throw). -/
def StepOutcome.state : StepOutcome → PanelState
  | .ok s => s
  | .typeError s => s

/-- Whether the handler aborted with a `TypeError`. -/
def StepOutcome.faulted : StepOutcome → Bool
  | .ok _ => false
  | .typeError _ => true

/-- Overwrite one field of the room object `currRoom` refers to: the object
returned by `getOrCreateRoom` lives inside `roomsById`, so a JavaScript
in-place field assignment is an in-place update of that map entry. -/
def writeRoom (roomId : String) (f : Room → Room) (s : PanelState) : PanelState :=
  { s with
      roomsById :=
        match mapGet s.roomsById roomId with
        | some room => mapSet s.roomsById roomId (f room)
        | none => s.roomsById }

/-- After the four field merges: `_setCurrentRoomId((currentRoomId) =>
currentRoomId ?? msg.roomId)`. -/
def syncFinish (body : SyncBody) (s : PanelState) : StepOutcome :=
  .ok
    { s with
        currentRoomId :=
          match s.currentRoomId with
          | some c => some c
          | none => some body.roomId }

/-- `if (msg.others !== undefined) { currRoom.others = msg.others;
hub.onOthers.notify(); }` — the field assignment happens first; if the hub
is `null` the `notify` dereference then throws. -/
def syncOthers (body : SyncBody) (hub : Option EventHub) (s : PanelState) :
    StepOutcome :=
  match body.others with
  | none => syncFinish body s
  | some v =>
      let s1 := writeRoom body.roomId (fun r => { r with others := some v }) s
      match hub with
      | some _ => syncFinish body (notifyHub body.roomId Channel.others s1)
      | none => .typeError s1

/-- `if (msg.me !== undefined) { ... }`. -/
def syncMe (body : SyncBody) (hub : Option EventHub) (s : PanelState) :
    StepOutcome :=
  match body.me with
  | none => syncOthers body hub s
  | some v =>
      let s1 := writeRoom body.roomId (fun r => { r with me := some v }) s
      match hub with
      | some _ => syncOthers body hub (notifyHub body.roomId Channel.me s1)
      | none => .typeError s1

/-- `if (msg.storage !== undefined) { ... }`. -/
def syncStorage (body : SyncBody) (hub : Option EventHub) (s : PanelState) :
    StepOutcome :=
  match body.storage with
  | none => syncMe body hub s
  | some v =>
      let s1 := writeRoom body.roomId (fun r => { r with storage := some v }) s
      match hub with
      | some _ => syncMe body hub (notifyHub body.roomId Channel.storage s1)
      | none => .typeError s1

/-- `if (msg.status !== undefined) { ... }`. -/
def syncStatus (body : SyncBody) (hub : Option EventHub) (s : PanelState) :
    StepOutcome :=
  match body.status with
  | none => syncStorage body hub s
  | some v =>
      let s1 := writeRoom body.roomId (fun r => { r with status := some v }) s
      match hub with
      | some _ => syncStorage body hub (notifyHub body.roomId Channel.status s1)
      | none => .typeError s1

/-- The `room::sync::full` / `room::sync::partial` case of
`onClientMessage`: `getOrCreateRoom`, hub lookup, the four conditional
field merges, then the fallback selection. -/
def applySync (body : SyncBody) (s : PanelState) : StepOutcome :=
  let s1 := (getOrCreateRoom body.roomId s).2
  let p := getRoomHub (some body.roomId) s1
  syncStatus body p.1 p.2

/-- `onClientMessage(msg)`: the protocol reducer. -/
def onClientMessage (msg : ClientToPanelMsg) (s : PanelState) : StepOutcome :=
  match msg with
  | .wakeUpDevtools =>
      .ok { s with outbox := s.outbox ++ [PanelToClientMsg.connect] }
  | .roomAvailable roomId =>
      .ok (softSetCurrentRoomId (some roomId) (getOrCreateRoom roomId s).2)
  | .roomUnavailable roomId =>
      let s1 := (deleteRoom roomId s).2
      .ok (softSetCurrentRoomId s1.allRoomIds.head? s1)
  | .roomSync _ body => applySync body s

/-! ## Subscription facade reads -/

/-- `getRoom(roomId)`: `roomId ? roomsById.get(roomId) ?? null : null` —
again the empty string is falsy. -/
def getRoom (roomId : Option String) (s : PanelState) : Option Room :=
  match roomId with
  | none => none
  | some r => if r = "" then none else mapGet s.roomsById r

/-- The snapshot read of `useOthers()`:
`room?.others && room.others.length > 0 ? room.others : null`. -/
def useOthersSnapshot (s : PanelState) : Option (List UserTreeNode) :=
  match getRoom s.currentRoomId s with
  | none => none
  | some room =>
      match room.others with
      | none => none
      | some os => if os.length > 0 then some os else none

/-! ## Registry action sequences (for the reachable-state invariant) -/

/-- One registry-level action: a `room::available` message, a
`room::unavailable` message, or a panel-UI `setCurrentRoomId` call (the
latter validates its argument itself, so arbitrary arguments are allowed
here). -/
inductive RegAction : Type
  | avail (roomId : String)
  | unavail (roomId : String)
  | setCur (roomId : Option String)

/-- Apply one registry action (the message cases never fault). -/
def applyRegAction (a : RegAction) (s : PanelState) : PanelState :=
  match a with
  | .avail r => (onClientMessage (.roomAvailable r) s).state
  | .unavail r => (onClientMessage (.roomUnavailable r) s).state
  | .setCur r => setCurrentRoomId r s

/-- Process a sequence of registry actions in order. -/
def runRegActions (acts : List RegAction) (s : PanelState) : PanelState :=
  acts.foldl (fun s1 a => applyRegAction a s1) s

/-- One step of the announced-and-not-yet-removed id bookkeeping. -/
def annStep (a : RegAction) (acc : List String) : List String :=
  match a with
  | .avail r => if r ∈ acc then acc else acc ++ [r]
  | .unavail r => acc.filter (fun x => x != r)
  | .setCur _ => acc

/-- The ids announced and not yet removed by a sequence of actions, in
insertion order. -/
def announcedIds (acts : List RegAction) : List String :=
  acts.foldl (fun acc a => annStep a acc) []

/-! ## Basic facts about the operations -/

theorem mapSet_mapSet_self {α : Type} (m : List (String × α)) (k : String) (v1 v2 : α) :
    mapSet (mapSet m k v1) k v2 = mapSet m k v2 := by
  induction m with
  | nil => simp [mapSet]
  | cons p rest ih =>
      obtain ⟨k1, w⟩ := p
      by_cases hk : k1 = k
      · simp [mapSet, hk]
      · simp [mapSet, hk, ih]

theorem getOrCreateRoom_of_get_some {s : PanelState} {rid : String} {r : Room}
    (h : mapGet s.roomsById rid = some r) : getOrCreateRoom rid s = (r, s) := by
  simp [getOrCreateRoom, h]

theorem getOrCreateRoom_of_get_none {s : PanelState} {rid : String}
    (h : mapGet s.roomsById rid = none) : getOrCreateRoom rid s = makeRoom rid s := by
  simp [getOrCreateRoom, h]

theorem softSet_roomsById (cand : Option String) (s : PanelState) :
    (softSetCurrentRoomId cand s).roomsById = s.roomsById := rfl

theorem softSet_allRoomIds (cand : Option String) (s : PanelState) :
    (softSetCurrentRoomId cand s).allRoomIds = s.allRoomIds := rfl

theorem softSet_log (cand : Option String) (s : PanelState) :
    (softSetCurrentRoomId cand s).log = s.log := rfl

theorem softSet_eventHubs (cand : Option String) (s : PanelState) :
    (softSetCurrentRoomId cand s).eventHubs = s.eventHubs := rfl

theorem softSet_of_current_none {s : PanelState} (cand : Option String)
    (h : s.currentRoomId = none) :
    softSetCurrentRoomId cand s = { s with currentRoomId := cand } := by
  simp [softSetCurrentRoomId, h]

theorem softSet_of_current_valid {s : PanelState} {c : String} (cand : Option String)
    (h : s.currentRoomId = some c) (hc : mapHas s.roomsById c = true) :
    softSetCurrentRoomId cand s = s := by
  have h1 : softSetCurrentRoomId cand s = { s with currentRoomId := some c } := by
    simp [softSetCurrentRoomId, h, hc]
  rw [h1, ← h]

theorem softSet_of_current_invalid_cand_none {s : PanelState} {c : String}
    (h : s.currentRoomId = some c) (hc : mapHas s.roomsById c = false) :
    softSetCurrentRoomId none s = { s with currentRoomId := none } := by
  simp [softSetCurrentRoomId, h, hc]

theorem softSet_of_current_invalid_cand_valid {s : PanelState} {c n : String}
    (h : s.currentRoomId = some c) (hc : mapHas s.roomsById c = false)
    (hn : mapHas s.roomsById n = true) :
    softSetCurrentRoomId (some n) s = { s with currentRoomId := some n } := by
  simp [softSetCurrentRoomId, h, hc, hn]

theorem softSet_of_current_invalid_cand_invalid {s : PanelState} {c n : String}
    (h : s.currentRoomId = some c) (hc : mapHas s.roomsById c = false)
    (hn : mapHas s.roomsById n = false) :
    softSetCurrentRoomId (some n) s = s := by
  have h1 : softSetCurrentRoomId (some n) s = { s with currentRoomId := some c } := by
    simp [softSetCurrentRoomId, h, hc, hn]
  rw [h1, ← h]

theorem setCurrentRoomId_roomsById (r : Option String) (s : PanelState) :
    (setCurrentRoomId r s).roomsById = s.roomsById := by
  unfold setCurrentRoomId
  cases r with
  | none => rfl
  | some x => by_cases h : mapHas s.roomsById x <;> simp [h]

theorem setCurrentRoomId_allRoomIds (r : Option String) (s : PanelState) :
    (setCurrentRoomId r s).allRoomIds = s.allRoomIds := by
  unfold setCurrentRoomId
  cases r with
  | none => rfl
  | some x => by_cases h : mapHas s.roomsById x <;> simp [h]

theorem deleteRoom_of_has {s : PanelState} {rid : String}
    (h : mapHas s.roomsById rid = true) :
    (deleteRoom rid s).2 =
      { s with
          roomsById := mapDelete s.roomsById rid
          allRoomIds := mapKeys (mapDelete s.roomsById rid)
          log := s.log ++ [Notification.roomCountChanged] } := by
  simp [deleteRoom, h]

theorem deleteRoom_of_not_has {s : PanelState} {rid : String}
    (h : mapHas s.roomsById rid = false) : (deleteRoom rid s).2 = s := by
  simp [deleteRoom, h]

theorem deleteRoom_eventHubs (rid : String) (s : PanelState) :
    (deleteRoom rid s).2.eventHubs = s.eventHubs := by
  unfold deleteRoom
  by_cases h : mapHas s.roomsById rid <;> simp [h]

theorem getOrCreateEventHub_roomsById (rid : String) (s : PanelState) :
    (getOrCreateEventHubForRoomId rid s).2.roomsById = s.roomsById := by
  unfold getOrCreateEventHubForRoomId
  cases mapGet s.eventHubs rid <;> rfl

theorem getOrCreateEventHub_allRoomIds (rid : String) (s : PanelState) :
    (getOrCreateEventHubForRoomId rid s).2.allRoomIds = s.allRoomIds := by
  unfold getOrCreateEventHubForRoomId
  cases mapGet s.eventHubs rid <;> rfl

theorem getOrCreateEventHub_log (rid : String) (s : PanelState) :
    (getOrCreateEventHubForRoomId rid s).2.log = s.log := by
  unfold getOrCreateEventHubForRoomId
  cases mapGet s.eventHubs rid <;> rfl

theorem getOrCreateEventHub_currentRoomId (rid : String) (s : PanelState) :
    (getOrCreateEventHubForRoomId rid s).2.currentRoomId = s.currentRoomId := by
  unfold getOrCreateEventHubForRoomId
  cases mapGet s.eventHubs rid <;> rfl

/-! ## The registry invariant and its preservation -/

/-- The registry consistency invariant: the derived `allRoomIds` list is the
key list of `roomsById`, and a non-null `currentRoomId` is a present key. -/
def RegInv (s : PanelState) : Prop :=
  s.allRoomIds = mapKeys s.roomsById ∧
  ∀ c, s.currentRoomId = some c → c ∈ mapKeys s.roomsById

theorem regInv_softSet {s : PanelState} (cand : Option String) (h : RegInv s)
    (hc : ∀ x, cand = some x → x ∈ mapKeys s.roomsById) :
    RegInv (softSetCurrentRoomId cand s) := by
  constructor
  · exact h.1
  · intro c hc1
    cases hcur : s.currentRoomId with
    | none =>
        rw [softSet_of_current_none cand hcur] at hc1
        exact hc c (hc1)
    | some c0 =>
        have hmem : c0 ∈ mapKeys s.roomsById := h.2 c0 hcur
        have hhas : mapHas s.roomsById c0 = true := (mapHas_iff_mem_keys _ _).mpr hmem
        rw [softSet_of_current_valid cand hcur hhas] at hc1
        exact h.2 c hc1

theorem applyRegAction_avail (r : String) (s : PanelState) :
    applyRegAction (RegAction.avail r) s =
      softSetCurrentRoomId (some r) (getOrCreateRoom r s).2 := rfl

theorem applyRegAction_unavail (r : String) (s : PanelState) :
    applyRegAction (RegAction.unavail r) s =
      softSetCurrentRoomId ((deleteRoom r s).2.allRoomIds).head? (deleteRoom r s).2 := rfl

theorem makeRoom_state (r : String) (s : PanelState) :
    (makeRoom r s).2 =
      { s with
          roomsById :=
            mapSet s.roomsById r
              { roomId := r, status := none, storage := none, me := none, others := none }
          allRoomIds :=
            mapKeys
              (mapSet s.roomsById r
                { roomId := r, status := none, storage := none, me := none, others := none })
          log := s.log ++ [Notification.roomCountChanged] } := rfl

theorem regInv_softSet_head (s1 : PanelState) (h1 : s1.allRoomIds = mapKeys s1.roomsById) :
    RegInv (softSetCurrentRoomId s1.allRoomIds.head? s1) := by
  refine ⟨h1, ?_⟩
  intro c hc1
  cases hcur : s1.currentRoomId with
  | none =>
      rw [softSet_of_current_none _ hcur] at hc1
      have hc2 : s1.allRoomIds.head? = some c := hc1
      rw [h1] at hc2
      exact List.mem_of_mem_head? (Option.mem_def.mpr hc2)
  | some c0 =>
      by_cases hc0 : mapHas s1.roomsById c0
      · rw [softSet_of_current_valid _ hcur hc0] at hc1
        rw [hcur] at hc1
        injection hc1 with he
        subst he
        exact (mapHas_iff_mem_keys _ _).mp hc0
      · have hc0f : mapHas s1.roomsById c0 = false := by simpa using hc0
        cases hcand : s1.allRoomIds.head? with
        | none =>
            rw [hcand, softSet_of_current_invalid_cand_none hcur hc0f] at hc1
            simp at hc1
        | some h2 =>
            have hm2 : h2 ∈ mapKeys s1.roomsById := by
              rw [← h1]
              exact List.mem_of_mem_head? (Option.mem_def.mpr hcand)
            rw [hcand, softSet_of_current_invalid_cand_valid hcur hc0f
              ((mapHas_iff_mem_keys _ _).mpr hm2)] at hc1
            have hc2 : (some h2 : Option String) = some c := hc1
            injection hc2 with he
            subst he
            exact hm2

theorem regInv_applyRegAction (a : RegAction) (s : PanelState) (h : RegInv s) :
    RegInv (applyRegAction a s) ∧
    mapKeys (applyRegAction a s).roomsById = annStep a (mapKeys s.roomsById) := by
  cases a with
  | avail r =>
      rw [applyRegAction_avail]
      by_cases hr : mapHas s.roomsById r
      · obtain ⟨room, hroom⟩ : ∃ room, mapGet s.roomsById r = some room := by
          cases hg : mapGet s.roomsById r
          · simp [mapHas, hg] at hr
          · exact ⟨_, rfl⟩
        rw [getOrCreateRoom_of_get_some hroom]
        refine ⟨regInv_softSet _ h ?_, ?_⟩
        · intro x hx
          injection hx with hx1
          subst hx1
          exact (mapHas_iff_mem_keys _ _).mp hr
        · rw [softSet_roomsById]
          simp [annStep, (mapHas_iff_mem_keys _ _).mp hr]
      · have hr1 : mapHas s.roomsById r = false := by simpa using hr
        rw [getOrCreateRoom_of_get_none ((mapHas_eq_false_iff _ _).mp hr1), makeRoom_state]
        have hkeys :
            mapKeys
              (mapSet s.roomsById r
                { roomId := r, status := none, storage := none, me := none, others := none }) =
              mapKeys s.roomsById ++ [r] := mapKeys_mapSet_of_not_has _ _ _ hr1
        constructor
        · refine regInv_softSet _ ⟨rfl, ?_⟩ ?_
          · intro c hc1
            rw [hkeys]
            exact List.mem_append_left _ (h.2 c hc1)
          · intro x hx
            injection hx with hx1
            subst hx1
            rw [hkeys]
            exact List.mem_append_right _ (List.mem_singleton.mpr rfl)
        · rw [softSet_roomsById]
          have hnm : r ∉ mapKeys s.roomsById := fun hm => by
            rw [(mapHas_iff_mem_keys _ _).mpr hm] at hr1
            simp at hr1
          simp [annStep, hnm, hkeys]
  | unavail r =>
      rw [applyRegAction_unavail]
      by_cases hr : mapHas s.roomsById r
      · rw [deleteRoom_of_has hr]
        constructor
        · exact regInv_softSet_head _ rfl
        · rw [softSet_roomsById]
          exact mapKeys_mapDelete _ _
      · have hr1 : mapHas s.roomsById r = false := by simpa using hr
        rw [deleteRoom_of_not_has hr1]
        have hnm : r ∉ mapKeys s.roomsById := fun hm => by
          rw [(mapHas_iff_mem_keys _ _).mpr hm] at hr1
          simp at hr1
        constructor
        · exact regInv_softSet_head _ h.1
        · rw [softSet_roomsById]
          have hfil : (mapKeys s.roomsById).filter (fun x => x != r) = mapKeys s.roomsById := by
            refine List.filter_eq_self.mpr ?_
            intro x hx
            have hne : ¬(x = r) := fun he => hnm (he ▸ hx)
            simp [hne]
          simp [annStep, hfil]
  | setCur r =>
      cases r with
      | none =>
          refine ⟨⟨h.1, ?_⟩, rfl⟩
          intro c hc1
          have hc2 : (none : Option String) = some c := hc1
          exact Option.noConfusion hc2
      | some x =>
          have happ : applyRegAction (RegAction.setCur (some x)) s =
              (if mapHas s.roomsById x then { s with currentRoomId := some x } else s) := rfl
          by_cases hx : mapHas s.roomsById x
          · rw [happ, if_pos hx]
            refine ⟨⟨h.1, ?_⟩, rfl⟩
            intro c hc1
            have hc2 : (some x : Option String) = some c := hc1
            injection hc2 with he
            subst he
            exact (mapHas_iff_mem_keys _ _).mp hx
          · rw [happ, if_neg hx]
            exact ⟨h, rfl⟩

theorem regInv_runRegActions (acts : List RegAction) :
    ∀ s : PanelState, RegInv s →
      RegInv (runRegActions acts s) ∧
      mapKeys (runRegActions acts s).roomsById =
        acts.foldl (fun acc a => annStep a acc) (mapKeys s.roomsById) := by
  induction acts with
  | nil =>
      intro s h
      exact ⟨h, rfl⟩
  | cons a rest ih =>
      intro s h
      have h1 := regInv_applyRegAction a s h
      have h2 := ih (applyRegAction a s) h1.1
      constructor
      · exact h2.1
      · have hrun : runRegActions (a :: rest) s = runRegActions rest (applyRegAction a s) := rfl
        rw [hrun, h2.2, h1.2]
        rfl

theorem softSet_head_sets_current {s1 : PanelState} {c : String}
    (hcur : s1.currentRoomId = some c) (hinv : mapHas s1.roomsById c = false)
    (h1 : s1.allRoomIds = mapKeys s1.roomsById) :
    (softSetCurrentRoomId s1.allRoomIds.head? s1).currentRoomId = s1.allRoomIds.head? := by
  cases hcand : s1.allRoomIds.head? with
  | none =>
      rw [softSet_of_current_invalid_cand_none hcur hinv]
  | some h2 =>
      have hm2 : h2 ∈ mapKeys s1.roomsById := by
        rw [← h1]
        exact List.mem_of_mem_head? (Option.mem_def.mpr hcand)
      rw [softSet_of_current_invalid_cand_valid hcur hinv
        ((mapHas_iff_mem_keys _ _).mpr hm2)]

/-! ## Claim C3 -/

/-- C3: starting from the empty initial registry, after any sequence of
`room::available` / `room::unavailable` messages (with panel-side
`setCurrentRoomId` calls, which validate to null-or-existing ids, allowed
in between), the registry's session-id set is exactly the set of ids
announced and not yet removed, and a non-null current-session pointer is
always a member of that set. -/
theorem claim3_registry_invariant (acts : List RegAction) :
    (∀ x, x ∈ mapKeys (runRegActions acts initialState).roomsById ↔ x ∈ announcedIds acts) ∧
    ∀ c, (runRegActions acts initialState).currentRoomId = some c →
      c ∈ mapKeys (runRegActions acts initialState).roomsById := by
  have h0 : RegInv initialState := by
    refine ⟨rfl, ?_⟩
    intro c hc
    exact Option.noConfusion hc
  have h := regInv_runRegActions acts initialState h0
  constructor
  · intro x
    rw [h.2]
    exact Iff.rfl
  · exact h.1.2

/-- Witness for C3 at the one-action sequence `[available "A"]`. -/
theorem claim3_witness :
    (runRegActions [RegAction.avail "A"] initialState).currentRoomId = some "A" ∧
    "A" ∈ mapKeys (runRegActions [RegAction.avail "A"] initialState).roomsById := by
  refine ⟨rfl, ?_⟩
  exact (claim3_registry_invariant [RegAction.avail "A"]).2 "A" rfl

/-! ## Claim C4 -/

/-- C4: if the current pointer refers to an existing session, processing
`room::unavailable` for that session leaves the current pointer equal to the
head of the recomputed ordered id list (`null` when the registry became
empty), and that recomputed list is the insertion-order list of the
remaining keys. Determinism is inherent: the reducer is a function of the
state. -/
theorem claim4_remove_current_fallback (s : PanelState) (c : String)
    (h1 : s.currentRoomId = some c) (h2 : mapHas s.roomsById c = true) :
    (onClientMessage (ClientToPanelMsg.roomUnavailable c) s).state.currentRoomId =
      ((onClientMessage (ClientToPanelMsg.roomUnavailable c) s).state.allRoomIds).head? ∧
    (onClientMessage (ClientToPanelMsg.roomUnavailable c) s).state.allRoomIds =
      (mapKeys s.roomsById).filter (fun x => x != c) := by
  have hstep : (onClientMessage (ClientToPanelMsg.roomUnavailable c) s).state =
      softSetCurrentRoomId ((deleteRoom c s).2.allRoomIds).head? (deleteRoom c s).2 := rfl
  have hd := deleteRoom_of_has h2
  have hcur1 : (deleteRoom c s).2.currentRoomId = some c := by
    rw [hd]
    exact h1
  have hhas1 : mapHas (deleteRoom c s).2.roomsById c = false := by
    rw [hd]
    exact (mapHas_eq_false_iff _ _).mpr (mapGet_mapDelete_self _ _)
  have hids1 : (deleteRoom c s).2.allRoomIds = mapKeys (deleteRoom c s).2.roomsById := by
    rw [hd]
  constructor
  · rw [hstep]
    exact softSet_head_sets_current hcur1 hhas1 hids1
  · rw [hstep, softSet_allRoomIds, hd]
    exact mapKeys_mapDelete _ _

/-- Witness for C4: sessions A, B, C added in that order (current = A);
removing A makes current = B, the first remaining id. -/
theorem claim4_witness :
    (runRegActions [RegAction.avail "A", RegAction.avail "B", RegAction.avail "C"]
        initialState).currentRoomId = some "A" ∧
    (onClientMessage (ClientToPanelMsg.roomUnavailable "A")
        (runRegActions [RegAction.avail "A", RegAction.avail "B", RegAction.avail "C"]
          initialState)).state.currentRoomId = some "B" := by
  constructor
  · rfl
  · have h := claim4_remove_current_fallback
      (runRegActions [RegAction.avail "A", RegAction.avail "B", RegAction.avail "C"]
        initialState) "A" rfl rfl
    rw [h.1]
    rfl

/-! ## Claim C2 -/

/-- A registry state whose current pointer dangles: the mapping holds only
session "B" while the pointer says "A". -/
def danglingCurrentState : PanelState :=
  { roomsById :=
      [("B", { roomId := "B", status := none, storage := none, me := none, others := none })]
    allRoomIds := ["B"]
    eventHubs := []
    nextSourceId := 0
    currentRoomId := some "A"
    log := []
    outbox := [] }

/-- C2 counterexample: with an invalid current pointer ("A" is not in the
mapping) and a null candidate, `softSetCurrentRoomId` sets the pointer to
null — it does not fall back to "B", the first id of the ordered id list,
as the claim states. -/
theorem claim2_counterexample :
    (softSetCurrentRoomId none danglingCurrentState).currentRoomId = none ∧
    danglingCurrentState.allRoomIds.head? = some "B" ∧
    danglingCurrentState.currentRoomId = some "A" ∧
    mapHas danglingCurrentState.roomsById "A" = false :=
  ⟨rfl, rfl, rfl, rfl⟩

/-- C2 (amended): `softSetCurrentRoomId(candidate)` sets the pointer to the
candidate when the current pointer is null, or when the current pointer is
non-null but absent from the mapping and the candidate is null or present
in the mapping; in particular, with an invalid current pointer and a null
candidate the pointer becomes null — the function itself never consults the
ordered id list (the first-remaining-id fallback is produced by the
unavailable-handler, which passes that id as the candidate). An invalid
non-null candidate under an invalid current pointer, and any call under a
valid current pointer, leave the state unchanged. -/
theorem claim2_softSet_behavior (s : PanelState) (cand : Option String) :
    (s.currentRoomId = none → (softSetCurrentRoomId cand s).currentRoomId = cand) ∧
    (∀ c, s.currentRoomId = some c → mapHas s.roomsById c = false →
      (cand = none → (softSetCurrentRoomId cand s).currentRoomId = none) ∧
      (∀ n, cand = some n → mapHas s.roomsById n = true →
        (softSetCurrentRoomId cand s).currentRoomId = some n) ∧
      (∀ n, cand = some n → mapHas s.roomsById n = false →
        softSetCurrentRoomId cand s = s)) ∧
    (∀ c, s.currentRoomId = some c → mapHas s.roomsById c = true →
      softSetCurrentRoomId cand s = s) := by
  refine ⟨?_, ?_, ?_⟩
  · intro h
    rw [softSet_of_current_none cand h]
  · intro c h hc
    refine ⟨?_, ?_, ?_⟩
    · intro hcand
      subst hcand
      rw [softSet_of_current_invalid_cand_none h hc]
    · intro n hcand hn
      subst hcand
      rw [softSet_of_current_invalid_cand_valid h hc hn]
    · intro n hcand hn
      subst hcand
      exact softSet_of_current_invalid_cand_invalid h hc hn
  · intro c h hc
    exact softSet_of_current_valid cand h hc

/-- Witness for C2 at the dangling-pointer state with a null candidate. -/
theorem claim2_witness :
    (softSetCurrentRoomId none danglingCurrentState).currentRoomId = none := by
  exact ((claim2_softSet_behavior danglingCurrentState none).2.1 "A" rfl rfl).1 rfl

/-! ## Claim C6 -/

/-- C6: a `room::sync::full` and a `room::sync::partial` message with the
same body produce the same outcome — the same registry state, the same
notified hub channels, and the same fault behavior; the message kind plays
no role in the reducer. -/
theorem claim6_full_partial_identical (s : PanelState) (body : SyncBody) :
    onClientMessage (ClientToPanelMsg.roomSync SyncKind.full body) s =
      onClientMessage (ClientToPanelMsg.roomSync SyncKind.part body) s := rfl

/-! ## Claim C7 -/

/-- C7: for an id not yet in the registry, `getOrCreateRoom` creates exactly
one session with all four fields null, appends the id to the key list,
recomputes the ordered id list, and fires `onRoomCountChanged` exactly once;
a second call returns the same session and changes nothing (no further
notification). -/
theorem claim7_getOrCreate_idempotent (s : PanelState) (rid : String)
    (h : mapHas s.roomsById rid = false) :
    (getOrCreateRoom rid s).1 =
      { roomId := rid, status := none, storage := none, me := none, others := none } ∧
    mapKeys (getOrCreateRoom rid s).2.roomsById = mapKeys s.roomsById ++ [rid] ∧
    (getOrCreateRoom rid s).2.allRoomIds = mapKeys (getOrCreateRoom rid s).2.roomsById ∧
    (getOrCreateRoom rid s).2.log = s.log ++ [Notification.roomCountChanged] ∧
    getOrCreateRoom rid (getOrCreateRoom rid s).2 = getOrCreateRoom rid s := by
  have hg : mapGet s.roomsById rid = none := (mapHas_eq_false_iff _ _).mp h
  rw [getOrCreateRoom_of_get_none hg, makeRoom_state]
  refine ⟨rfl, mapKeys_mapSet_of_not_has _ _ _ h, rfl, rfl, ?_⟩
  exact getOrCreateRoom_of_get_some (mapGet_mapSet_self _ _ _)

/-- Witness for C7 at the unseen id "A" on the initial state. -/
theorem claim7_witness :
    mapHas initialState.roomsById "A" = false ∧
    getOrCreateRoom "A" (getOrCreateRoom "A" initialState).2 =
      getOrCreateRoom "A" initialState :=
  ⟨rfl, (claim7_getOrCreate_idempotent initialState "A" rfl).2.2.2.2⟩

/-! ## Claim C8 -/

/-- C8 counterexample: `deleteRoom` is a `void` function — its return value
is the same in a call that removes a session ("A" present) and in a call
that removes nothing ("A" absent), so it does not return whether a removal
occurred. -/
theorem claim8_counterexample :
    (deleteRoom "A" (runRegActions [RegAction.avail "A"] initialState)).1 =
      (deleteRoom "A" initialState).1 ∧
    mapHas (runRegActions [RegAction.avail "A"] initialState).roomsById "A" = true ∧
    mapHas initialState.roomsById "A" = false :=
  ⟨rfl, rfl, rfl⟩

/-- C8 (amended): `deleteRoom` returns no value. When the id is present it
removes that session (other sessions untouched), recomputes the ordered id
list, and fires `onRoomCountChanged`; when the id is absent the whole state
is unchanged. Whether a removal occurred is not reported to the caller. -/
theorem claim8_deleteRoom_behavior (s : PanelState) (rid : String) :
    (mapHas s.roomsById rid = true →
      mapGet (deleteRoom rid s).2.roomsById rid = none ∧
      (∀ k, k ≠ rid → mapGet (deleteRoom rid s).2.roomsById k = mapGet s.roomsById k) ∧
      (deleteRoom rid s).2.allRoomIds = (mapKeys s.roomsById).filter (fun x => x != rid) ∧
      (deleteRoom rid s).2.log = s.log ++ [Notification.roomCountChanged]) ∧
    (mapHas s.roomsById rid = false → (deleteRoom rid s).2 = s) := by
  constructor
  · intro h
    rw [deleteRoom_of_has h]
    refine ⟨mapGet_mapDelete_self _ _, ?_, mapKeys_mapDelete _ _, rfl⟩
    intro k hk
    exact mapGet_mapDelete_ne _ rid k (fun he => hk he.symm)
  · intro h
    exact deleteRoom_of_not_has h

/-- Witness for C8: a removing call on "A" and a no-op call on "B". -/
theorem claim8_witness :
    mapGet (deleteRoom "A" (runRegActions [RegAction.avail "A"] initialState)).2.roomsById "A" =
      none ∧
    (deleteRoom "B" initialState).2 = initialState := by
  refine ⟨?_, ?_⟩
  · exact ((claim8_deleteRoom_behavior
      (runRegActions [RegAction.avail "A"] initialState) "A").1 rfl).1
  · exact (claim8_deleteRoom_behavior initialState "B").2 rfl

/-! ## The sync chain on an existing room with a non-null hub -/

theorem mapSet_self {α : Type} (m : List (String × α)) (k : String) (v : α)
    (h : mapGet m k = some v) : mapSet m k v = m := by
  induction m with
  | nil => simp [mapGet] at h
  | cons p rest ih =>
      obtain ⟨k1, v1⟩ := p
      by_cases hk : k1 = k
      · simp only [mapGet, if_pos hk] at h
        injection h with he
        simp [mapSet, hk, he]
      · simp only [mapGet, if_neg hk] at h
        simp [mapSet, hk, ih h]

/-- The hub channels notified by one sync body: exactly the channels of the
present fields, in the source's order (status, storage, me, others). -/
def syncNotifs (body : SyncBody) : List Notification :=
  (if body.status.isSome then [Notification.hub body.roomId Channel.status] else []) ++
  (if body.storage.isSome then [Notification.hub body.roomId Channel.storage] else []) ++
  (if body.me.isSome then [Notification.hub body.roomId Channel.me] else []) ++
  (if body.others.isSome then [Notification.hub body.roomId Channel.others] else [])

/-- The field-wise merge the sync case performs on the room it targets. -/
def mergeRoom (body : SyncBody) (r : Room) : Room :=
  { roomId := r.roomId
    status := body.status.or r.status
    storage := body.storage.or r.storage
    me := body.me.or r.me
    others := body.others.or r.others }

theorem syncStatus_good (body : SyncBody) (hub : EventHub) (s : PanelState) (r : Room)
    (h : mapGet s.roomsById body.roomId = some r) :
    syncStatus body (some hub) s =
      StepOutcome.ok
        { s with
            roomsById := mapSet s.roomsById body.roomId (mergeRoom body r)
            log := s.log ++ syncNotifs body
            currentRoomId :=
              match s.currentRoomId with
              | some c => some c
              | none => some body.roomId } := by
  obtain ⟨rid, st, sto, me1, ot⟩ := body
  cases st <;> cases sto <;> cases me1 <;> cases ot <;>
    simp [syncStatus, syncStorage, syncMe, syncOthers, syncFinish, writeRoom, notifyHub,
      mergeRoom, syncNotifs, Option.or, h, mapGet_mapSet_self, mapSet_mapSet_self,
      mapSet_self _ _ _ h, List.append_assoc]

/-! ## Claim C5 -/

/-- C5 counterexample: a sync carrying a present `status` field for the
session id `""` faults (the hub lookup treats the empty string like `null`,
and dereferencing the null hub throws) and triggers no status-channel
notification — the only logged event is the count-changed notification of
the session's creation — contradicting the claim that every present field
triggers the matching hub channel. -/
theorem claim5_counterexample :
    (onClientMessage
        (ClientToPanelMsg.roomSync SyncKind.full
          { roomId := "", status := some ConnectionState.opened, storage := none,
            me := none, others := none })
        initialState).faulted = true ∧
    (onClientMessage
        (ClientToPanelMsg.roomSync SyncKind.full
          { roomId := "", status := some ConnectionState.opened, storage := none,
            me := none, others := none })
        initialState).state.log = [Notification.roomCountChanged] :=
  ⟨rfl, rfl⟩

/-- C5 (amended): for a session whose (non-empty) id is in the registry,
processing a sync message overwrites exactly the fields present in the
message (absent fields keep their values), notifies exactly the hub
channels of the present fields (in the order status, storage, me, others),
leaves every other session untouched, and completes without fault. For the
empty-string session id the handler instead throws a `TypeError` at the
first present field. -/
theorem claim5_sync_field_merge (s : PanelState) (kind : SyncKind) (body : SyncBody)
    (r : Room) (h : mapGet s.roomsById body.roomId = some r) (hne : body.roomId ≠ "") :
    (onClientMessage (ClientToPanelMsg.roomSync kind body) s).faulted = false ∧
    mapGet (onClientMessage (ClientToPanelMsg.roomSync kind body) s).state.roomsById
        body.roomId = some (mergeRoom body r) ∧
    (∀ k, k ≠ body.roomId →
      mapGet (onClientMessage (ClientToPanelMsg.roomSync kind body) s).state.roomsById k =
        mapGet s.roomsById k) ∧
    (onClientMessage (ClientToPanelMsg.roomSync kind body) s).state.log =
      s.log ++ syncNotifs body := by
  have h2 : mapGet (getOrCreateEventHubForRoomId body.roomId s).2.roomsById body.roomId =
      some r := by
    rw [getOrCreateEventHub_roomsById]
    exact h
  have happ : onClientMessage (ClientToPanelMsg.roomSync kind body) s =
      syncStatus body (some (getOrCreateEventHubForRoomId body.roomId s).1)
        (getOrCreateEventHubForRoomId body.roomId s).2 := by
    show applySync body s = _
    unfold applySync getRoomHub
    simp [getOrCreateRoom_of_get_some h, hne]
  rw [happ, syncStatus_good body _ _ r h2]
  dsimp only [StepOutcome.state, StepOutcome.faulted]
  refine ⟨rfl, ?_, ?_, ?_⟩
  · exact mapGet_mapSet_self _ _ _
  · intro k hk
    have hfr : mapGet
        (mapSet (getOrCreateEventHubForRoomId body.roomId s).2.roomsById body.roomId
          (mergeRoom body r)) k =
        mapGet (getOrCreateEventHubForRoomId body.roomId s).2.roomsById k :=
      mapGet_mapSet_ne _ _ _ _ (fun he => hk he.symm)
    rw [hfr, getOrCreateEventHub_roomsById]
  · rw [getOrCreateEventHub_log]

/-- A state with one session "A" whose `storage` field is already set (built
by processing a storage-only sync from the initial state). -/
def storageSetState : PanelState :=
  (onClientMessage
    (ClientToPanelMsg.roomSync SyncKind.full
      { roomId := "A", status := none, storage := some [], me := none, others := none })
    initialState).state

/-- Witness for C5: the spec's scenario — a sync carrying only
`{status: open}` for the session "A" whose storage is set leaves the
storage field unchanged and notifies only the status channel. -/
theorem claim5_witness :
    mapGet storageSetState.roomsById "A" =
      some { roomId := "A", status := none, storage := some [], me := none, others := none } ∧
    mapGet (onClientMessage
        (ClientToPanelMsg.roomSync SyncKind.part
          { roomId := "A", status := some ConnectionState.opened, storage := none,
            me := none, others := none })
        storageSetState).state.roomsById "A" =
      some { roomId := "A", status := some ConnectionState.opened, storage := some [],
             me := none, others := none } ∧
    (onClientMessage
        (ClientToPanelMsg.roomSync SyncKind.part
          { roomId := "A", status := some ConnectionState.opened, storage := none,
            me := none, others := none })
        storageSetState).state.log =
      storageSetState.log ++ [Notification.hub "A" Channel.status] := by
  have h := claim5_sync_field_merge storageSetState SyncKind.part
    { roomId := "A", status := some ConnectionState.opened, storage := none,
      me := none, others := none }
    { roomId := "A", status := none, storage := some [], me := none, others := none }
    rfl (by decide)
  exact ⟨rfl, h.2.1, h.2.2.2⟩

/-! ## Claim C1 -/

/-- C1 counterexample: processing a sync message for the id "A", absent
from the (empty) initial registry, is not a no-op on the registry — the
session-id set changes from empty to exactly that id. -/
theorem claim1_counterexample :
    mapKeys initialState.roomsById = ([] : List String) ∧
    mapKeys (onClientMessage
        (ClientToPanelMsg.roomSync SyncKind.part
          { roomId := "A", status := none, storage := none, me := none, others := none })
        initialState).state.roomsById = ["A"] :=
  ⟨rfl, rfl⟩

/-- C1 (amended): processing a session-sync for an id absent from the
mapping does not fault as long as the id is non-empty, but it is not a
no-op on the registry: `getOrCreateRoom` re-creates the session, so the
session-id set becomes the old set with that id appended, and the session
holds exactly the fields present in the message (all other fields null). -/
theorem claim1_sync_absent_creates (s : PanelState) (kind : SyncKind) (body : SyncBody)
    (h : mapHas s.roomsById body.roomId = false) (hne : body.roomId ≠ "") :
    (onClientMessage (ClientToPanelMsg.roomSync kind body) s).faulted = false ∧
    mapKeys (onClientMessage (ClientToPanelMsg.roomSync kind body) s).state.roomsById =
      mapKeys s.roomsById ++ [body.roomId] ∧
    mapGet (onClientMessage (ClientToPanelMsg.roomSync kind body) s).state.roomsById
        body.roomId =
      some { roomId := body.roomId, status := body.status, storage := body.storage,
             me := body.me, others := body.others } := by
  have hg : mapGet s.roomsById body.roomId = none := (mapHas_eq_false_iff _ _).mp h
  have hfresh : mapGet (makeRoom body.roomId s).2.roomsById body.roomId =
      some { roomId := body.roomId, status := none, storage := none, me := none,
             others := none } := by
    rw [makeRoom_state]
    exact mapGet_mapSet_self _ _ _
  have h2 : mapGet
      (getOrCreateEventHubForRoomId body.roomId (makeRoom body.roomId s).2).2.roomsById
      body.roomId =
      some { roomId := body.roomId, status := none, storage := none, me := none,
             others := none } := by
    rw [getOrCreateEventHub_roomsById]
    exact hfresh
  have happ : onClientMessage (ClientToPanelMsg.roomSync kind body) s =
      syncStatus body
        (some (getOrCreateEventHubForRoomId body.roomId (makeRoom body.roomId s).2).1)
        (getOrCreateEventHubForRoomId body.roomId (makeRoom body.roomId s).2).2 := by
    show applySync body s = _
    unfold applySync getRoomHub
    simp [getOrCreateRoom_of_get_none hg, hne]
  rw [happ, syncStatus_good body _ _ _ h2]
  dsimp only [StepOutcome.state, StepOutcome.faulted]
  refine ⟨rfl, ?_, ?_⟩
  · rw [getOrCreateEventHub_roomsById, makeRoom_state]
    dsimp only
    rw [mapSet_mapSet_self]
    exact mapKeys_mapSet_of_not_has _ _ _ h
  · rw [mapGet_mapSet_self]
    unfold mergeRoom
    cases body.status <;> cases body.storage <;> cases body.me <;> cases body.others <;>
      simp [Option.or]

/-- Witness for C1: a sync for the absent id "A" on the initial state. -/
theorem claim1_witness :
    mapHas initialState.roomsById "A" = false ∧
    mapKeys (onClientMessage
        (ClientToPanelMsg.roomSync SyncKind.part
          { roomId := "A", status := none, storage := none, me := none, others := none })
        initialState).state.roomsById = [] ++ ["A"] := by
  refine ⟨rfl, ?_⟩
  exact (claim1_sync_absent_creates initialState SyncKind.part
    { roomId := "A", status := none, storage := none, me := none, others := none }
    rfl (by decide)).2.1

/-! ## Claim C10 -/

theorem getOrCreateRoom_eventHubs (rid : String) (s : PanelState) :
    (getOrCreateRoom rid s).2.eventHubs = s.eventHubs := by
  unfold getOrCreateRoom
  cases mapGet s.roomsById rid <;> rfl

theorem writeRoom_eventHubs (rid : String) (f : Room → Room) (s : PanelState) :
    (writeRoom rid f s).eventHubs = s.eventHubs := rfl

theorem syncFinish_eventHubs (body : SyncBody) (s : PanelState) :
    (syncFinish body s).state.eventHubs = s.eventHubs := rfl

theorem syncOthers_eventHubs (body : SyncBody) (hub : Option EventHub) (s : PanelState) :
    (syncOthers body hub s).state.eventHubs = s.eventHubs := by
  obtain ⟨rid, st, sto, me1, ot⟩ := body
  cases ot <;> cases hub <;> rfl

theorem syncMe_eventHubs (body : SyncBody) (hub : Option EventHub) (s : PanelState) :
    (syncMe body hub s).state.eventHubs = s.eventHubs := by
  obtain ⟨rid, st, sto, me1, ot⟩ := body
  cases me1 with
  | none => exact syncOthers_eventHubs _ _ _
  | some v =>
      cases hub with
      | none => rfl
      | some hub1 =>
          rw [show syncMe ⟨rid, st, sto, some v, ot⟩ (some hub1) s =
            syncOthers ⟨rid, st, sto, some v, ot⟩ (some hub1)
              (notifyHub rid Channel.me
                (writeRoom rid (fun r => { r with me := some v }) s)) from rfl,
            syncOthers_eventHubs]
          rfl

theorem syncStorage_eventHubs (body : SyncBody) (hub : Option EventHub) (s : PanelState) :
    (syncStorage body hub s).state.eventHubs = s.eventHubs := by
  obtain ⟨rid, st, sto, me1, ot⟩ := body
  cases sto with
  | none => exact syncMe_eventHubs _ _ _
  | some v =>
      cases hub with
      | none => rfl
      | some hub1 =>
          rw [show syncStorage ⟨rid, st, some v, me1, ot⟩ (some hub1) s =
            syncMe ⟨rid, st, some v, me1, ot⟩ (some hub1)
              (notifyHub rid Channel.storage
                (writeRoom rid (fun r => { r with storage := some v }) s)) from rfl,
            syncMe_eventHubs]
          rfl

theorem syncStatus_eventHubs (body : SyncBody) (hub : Option EventHub) (s : PanelState) :
    (syncStatus body hub s).state.eventHubs = s.eventHubs := by
  obtain ⟨rid, st, sto, me1, ot⟩ := body
  cases st with
  | none => exact syncStorage_eventHubs _ _ _
  | some v =>
      cases hub with
      | none => rfl
      | some hub1 =>
          rw [show syncStatus ⟨rid, some v, sto, me1, ot⟩ (some hub1) s =
            syncStorage ⟨rid, some v, sto, me1, ot⟩ (some hub1)
              (notifyHub rid Channel.status
                (writeRoom rid (fun r => { r with status := some v }) s)) from rfl,
            syncStorage_eventHubs]
          rfl

theorem getOrCreateEventHub_keys_grow (rid : String) (s : PanelState) :
    List.Sublist (mapKeys s.eventHubs)
      (mapKeys (getOrCreateEventHubForRoomId rid s).2.eventHubs) := by
  unfold getOrCreateEventHubForRoomId
  cases hg : mapGet s.eventHubs rid with
  | some hub => exact List.Sublist.refl _
  | none =>
      have h : mapHas s.eventHubs rid = false := (mapHas_eq_false_iff _ _).mpr hg
      show List.Sublist (mapKeys s.eventHubs) (mapKeys (makeEventHub rid s).2.eventHubs)
      unfold makeEventHub
      dsimp only
      rw [mapKeys_mapSet_of_not_has _ _ _ h]
      exact List.sublist_append_left _ _

theorem onClientMessage_hubs_grow (msg : ClientToPanelMsg) (s : PanelState) :
    List.Sublist (mapKeys s.eventHubs)
      (mapKeys (onClientMessage msg s).state.eventHubs) := by
  cases msg with
  | wakeUpDevtools => exact List.Sublist.refl _
  | roomAvailable r =>
      have h1 : (onClientMessage (ClientToPanelMsg.roomAvailable r) s).state.eventHubs =
          s.eventHubs := by
        show (softSetCurrentRoomId (some r) (getOrCreateRoom r s).2).eventHubs = s.eventHubs
        rw [softSet_eventHubs, getOrCreateRoom_eventHubs]
      rw [h1]
  | roomUnavailable r =>
      have h1 : (onClientMessage (ClientToPanelMsg.roomUnavailable r) s).state.eventHubs =
          s.eventHubs := by
        show (softSetCurrentRoomId ((deleteRoom r s).2.allRoomIds).head?
            (deleteRoom r s).2).eventHubs = s.eventHubs
        rw [softSet_eventHubs, deleteRoom_eventHubs]
      rw [h1]
  | roomSync kind body =>
      have h1 : (onClientMessage (ClientToPanelMsg.roomSync kind body) s).state.eventHubs =
          (getRoomHub (some body.roomId) (getOrCreateRoom body.roomId s).2).2.eventHubs := by
        show (applySync body s).state.eventHubs = _
        unfold applySync
        exact syncStatus_eventHubs _ _ _
      rw [h1]
      by_cases he : body.roomId = ""
      · have h2 : (getRoomHub (some body.roomId) (getOrCreateRoom body.roomId s).2).2 =
            (getOrCreateRoom body.roomId s).2 := by
          unfold getRoomHub
          dsimp only
          rw [if_pos he]
        rw [h2, getOrCreateRoom_eventHubs]
      · have h2 : (getRoomHub (some body.roomId) (getOrCreateRoom body.roomId s).2).2 =
            (getOrCreateEventHubForRoomId body.roomId (getOrCreateRoom body.roomId s).2).2 := by
          unfold getRoomHub
          dsimp only
          rw [if_neg he]
        rw [h2]
        have h3 := getOrCreateEventHub_keys_grow body.roomId (getOrCreateRoom body.roomId s).2
        rw [getOrCreateRoom_eventHubs] at h3
        exact h3

/-- C10: removing a session does not destroy its event hub. `deleteRoom`
leaves the `_eventHubs` map — and so every listener registered on the four
channels of every hub — unchanged; a later hub lookup for the removed id
returns the previously created hub (same source identities), not a fresh
one; and no reducer step ever removes a hub-map key, so the hub map only
grows. -/
theorem claim10_hub_survives_removal (s : PanelState) (rid : String)
    (msg : ClientToPanelMsg) :
    (deleteRoom rid s).2.eventHubs = s.eventHubs ∧
    (∀ hub, mapGet s.eventHubs rid = some hub →
      getOrCreateEventHubForRoomId rid (deleteRoom rid s).2 = (hub, (deleteRoom rid s).2)) ∧
    List.Sublist (mapKeys s.eventHubs) (mapKeys (onClientMessage msg s).state.eventHubs) := by
  refine ⟨deleteRoom_eventHubs rid s, ?_, onClientMessage_hubs_grow msg s⟩
  intro hub hh
  unfold getOrCreateEventHubForRoomId
  rw [deleteRoom_eventHubs rid s, hh]

/-- Witness for C10: create the hub for "A", remove the room "A", and look
the hub up again — the original hub object comes back. -/
theorem claim10_witness :
    mapGet (getOrCreateEventHubForRoomId "A" initialState).2.eventHubs "A" =
      some (getOrCreateEventHubForRoomId "A" initialState).1 ∧
    getOrCreateEventHubForRoomId "A"
        (deleteRoom "A" (getOrCreateEventHubForRoomId "A" initialState).2).2 =
      ((getOrCreateEventHubForRoomId "A" initialState).1,
        (deleteRoom "A" (getOrCreateEventHubForRoomId "A" initialState).2).2) := by
  refine ⟨rfl, ?_⟩
  exact (claim10_hub_survives_removal (getOrCreateEventHubForRoomId "A" initialState).2
    "A" ClientToPanelMsg.wakeUpDevtools).2.1 _ rfl

/-! ## Claim C9 -/

/-- C9: at the subscription facade, the `useOthers` snapshot yields "no
other participants" (null) both when no data has arrived (`others` null)
and when the mirrored sequence is empty; and whatever non-null sequence the
read does return is the session's own `others`, necessarily non-empty. -/
theorem claim9_useOthers_normalization (s : PanelState) (c : String) (room : Room)
    (h1 : s.currentRoomId = some c) (h2 : mapGet s.roomsById c = some room) :
    ((room.others = none ∨ room.others = some ([] : List UserTreeNode)) →
      useOthersSnapshot s = none) ∧
    (∀ os, useOthersSnapshot s = some os → os ≠ [] ∧ room.others = some os) := by
  by_cases hc : c = ""
  · subst hc
    have hread : useOthersSnapshot s = none := by
      unfold useOthersSnapshot getRoom
      rw [h1]
      simp
    refine ⟨fun _ => hread, ?_⟩
    intro os hos
    rw [hread] at hos
    exact Option.noConfusion hos
  · have hroom : getRoom s.currentRoomId s = some room := by
      unfold getRoom
      rw [h1]
      dsimp only
      rw [if_neg hc]
      exact h2
    have hread : useOthersSnapshot s =
        (match room.others with
         | none => none
         | some os => if os.length > 0 then some os else none) := by
      unfold useOthersSnapshot
      rw [hroom]
    constructor
    · intro ho
      rw [hread]
      cases ho with
      | inl h => rw [h]
      | inr h =>
          rw [h]
          rfl
    · intro os hos
      rw [hread] at hos
      cases hoo : room.others with
      | none =>
          rw [hoo] at hos
          exact Option.noConfusion hos
      | some os1 =>
          rw [hoo] at hos
          dsimp only at hos
          by_cases hlen : os1.length > 0
          · rw [if_pos hlen] at hos
            injection hos with he
            subst he
            refine ⟨?_, rfl⟩
            intro hnil
            rw [hnil] at hlen
            simp at hlen
          · rw [if_neg hlen] at hos
            exact Option.noConfusion hos

/-- Witness for C9: after a sync reporting an empty `others` sequence for
session "A" (which also selects "A"), the facade read yields null. -/
theorem claim9_witness :
    useOthersSnapshot
      (onClientMessage
        (ClientToPanelMsg.roomSync SyncKind.full
          { roomId := "A", status := none, storage := none, me := none,
            others := some [] })
        initialState).state = none := by
  exact (claim9_useOthers_normalization
    (onClientMessage
      (ClientToPanelMsg.roomSync SyncKind.full
        { roomId := "A", status := none, storage := none, me := none,
          others := some [] })
      initialState).state
    "A"
    { roomId := "A", status := none, storage := none, me := none, others := some [] }
    rfl rfl).1 (Or.inr rfl)

end Liveblocks
